import Mathlib

/-!
Verification of the `uuid-tools` command-line program (`src/bin/uuid/main.rs`).

A UUID value is modelled as a list of 16 natural numbers, each below 256
(the 16 bytes of the 128-bit value).  Textual representations are lists of
characters.  The brace-stripping logic of `parse_uuid`, the tick computation
`ticks_from_timestamp` and the control flow of `main` are translated directly
from the source file; the codec and generator internals that the program takes
from its UUID library (parsing the simple / hyphenated / URN shapes,
formatting, version / variant / timestamp accessors, v1 and v4 construction)
are modelled from the specification, as marked on each definition.
-/

namespace UuidTools

/-- The bytes of a UUID: a list of 16 naturals, each below 256. -/
abbrev Bytes := List Nat

/-- The opening brace character. -/
def lbrace : Char := Char.ofNat 123

/-- The closing brace character. -/
def rbrace : Char := Char.ofNat 125

/-- Modelled from the spec: UUID versions (`uuid::Version` of the UUID library,
not under `src/`). -/
inductive Version
  | Nil
  | Mac
  | Dce
  | Md5
  | Random
  | Sha1
deriving DecidableEq

/-- Modelled from the spec: UUID variants (`uuid::Variant` of the UUID library,
not under `src/`). -/
inductive Variant
  | NCS
  | RFC4122
  | Microsoft
  | Future
deriving DecidableEq

/-- Output formats, from `enum Format` in the source. -/
inductive Format
  | Simple
  | Hyphenated
  | Urn
  | Microsoft
deriving DecidableEq

/-- Modelled from the spec: the value of one hexadecimal digit character,
case-insensitive; `none` on a non-hex character. -/
def hexVal (c : Char) : Option Nat :=
  if Char.ofNat 48 ≤ c ∧ c ≤ Char.ofNat 57 then some (c.toNat - 48)
  else if Char.ofNat 97 ≤ c ∧ c ≤ Char.ofNat 102 then some (c.toNat - 97 + 10)
  else if Char.ofNat 65 ≤ c ∧ c ≤ Char.ofNat 70 then some (c.toNat - 65 + 10)
  else none

/-- Whether a character is a hexadecimal digit. -/
def isHexDigit (c : Char) : Bool := (hexVal c).isSome

/-- Modelled from the spec: decode an even-length run of hexadecimal digit
characters into bytes, two digits per byte; fails on any non-hex character or
odd length (the digit-accumulation loop of the UUID library parser, not under
`src/`). -/
def parseHexDigits : List Char → Option Bytes
  | [] => some []
  | [_] => none
  | c1 :: c2 :: rest =>
    match hexVal c1, hexVal c2, parseHexDigits rest with
    | some h, some l, some bs => some ((h * 16 + l) :: bs)
    | _, _, _ => none

/-- The 32 digit positions of a 36-character hyphenated string: positions
0-7, 9-12, 14-17, 19-22 and 24-35 (between the hyphens at 8, 13, 18, 23). -/
def dehyphenate (s : List Char) : List Char :=
  s.take 8 ++ (s.drop 9).take 4 ++ (s.drop 14).take 4 ++ (s.drop 19).take 4 ++ s.drop 24

/-- Modelled from the spec: parse the hyphenated 8-4-4-4-12 form — 36
characters with hyphens exactly at positions 8, 13, 18 and 23 and hexadecimal
digits everywhere else (the group handling of the UUID library parser, not
under `src/`). -/
def parseHyphenated (s : List Char) : Option Bytes :=
  if s.length = 36 ∧ s[8]? = some '-' ∧ s[13]? = some '-'
      ∧ s[18]? = some '-' ∧ s[23]? = some '-' then
    parseHexDigits (dehyphenate s)
  else none

/-- The nine characters of the URN tag. -/
def urnTag : List Char := "urn:uuid:".data

/-- Modelled from the spec: the UUID library's string parser (not under
`src/`): a 45-character string starting with `urn:uuid:` is parsed as the tag
followed by the hyphenated form; otherwise a 36-character string is parsed as
the hyphenated form, a 32-character string as contiguous hex digits, and
every other length fails. -/
def parseUuidStr (s : List Char) : Option Bytes :=
  if s.length = 45 ∧ s.take 9 = urnTag then parseHyphenated (s.drop 9)
  else if s.length = 36 then parseHyphenated s
  else if s.length = 32 then parseHexDigits s
  else none

/-- Whether a string is brace-wrapped with total length 34 to 38, from
`parse_uuid` in the source (line 100). -/
def bracedForm (s : List Char) : Prop :=
  34 ≤ s.length ∧ s.length ≤ 38 ∧ s.head? = some lbrace ∧ s.getLast? = some rbrace

instance (s : List Char) : Decidable (bracedForm s) := by
  unfold bracedForm; infer_instance

/-- Strip the first and last character: `&s[1..(s.len() - 1)]` in the source. -/
def stripBraces (s : List Char) : List Char := (s.drop 1).take (s.length - 2)

/-- `parse_uuid` from the source (lines 99-106): strip surrounding braces when
the total length is between 34 and 38 inclusive and the first and last
characters are braces, then delegate to the library's string parser. -/
def parse_uuid (s : List Char) : Option Bytes :=
  parseUuidStr (if bracedForm s then stripBraces s else s)

/-- Modelled from the spec: the lowercase hexadecimal digit character of a
value below 16. -/
def hexChar (n : Nat) : Char :=
  if n < 10 then Char.ofNat (48 + n) else Char.ofNat (87 + n)

/-- The two lowercase hexadecimal digit characters of a byte. -/
def byteHex (b : Nat) : List Char := [hexChar (b / 16), hexChar (b % 16)]

/-- Modelled from the spec: the simple format — 32 lowercase hexadecimal
digits, no separators (`uuid::adapter::Simple`, not under `src/`). -/
def formatSimple (b : Bytes) : List Char := (b.map byteHex).flatten

/-- Modelled from the spec: the hyphenated format
`xxxxxxxx-xxxx-xxxx-xxxx-xxxxxxxxxxxx` (`uuid::adapter::Hyphenated`, not
under `src/`): bytes 0-3, 4-5, 6-7, 8-9 and 10-15 as hex groups joined by
hyphens. -/
def formatHyphenated (b : Bytes) : List Char :=
  formatSimple (b.take 4) ++ '-' ::
    (formatSimple ((b.drop 4).take 2) ++ '-' ::
      (formatSimple ((b.drop 6).take 2) ++ '-' ::
        (formatSimple ((b.drop 8).take 2) ++ '-' :: formatSimple (b.drop 10))))

/-- Modelled from the spec: the URN format, the tag `urn:uuid:` followed by
the hyphenated form (`uuid::adapter::Urn`, not under `src/`). -/
def formatUrn (b : Bytes) : List Char := urnTag ++ formatHyphenated b

/-- The Microsoft format written by `main` (line 276): a brace, the
hyphenated form, a closing brace. -/
def formatMicrosoft (b : Bytes) : List Char :=
  lbrace :: (formatHyphenated b ++ [rbrace])

/-- The text written for a UUID under each output format (`main`,
lines 273-280). -/
def formatUuid : Format → Bytes → List Char
  | .Simple, b => formatSimple b
  | .Hyphenated, b => formatHyphenated b
  | .Urn, b => formatUrn b
  | .Microsoft, b => formatMicrosoft b

/-- Modelled from the spec: the nil UUID, 16 zero bytes (`Uuid::nil`, not
under `src/`). -/
def nilUuid : Bytes := List.replicate 16 0

/-- Modelled from the spec: the version accessor (`Uuid::get_version`, not
under `src/`): the high nibble of byte 6; nibble 0 reports Nil only for the
all-zero value, and reserved nibbles report no version. -/
def get_version (b : Bytes) : Option Version :=
  let num := b.getD 6 0 / 16
  if num = 0 then (if b = nilUuid then some Version.Nil else none)
  else if num = 1 then some Version.Mac
  else if num = 2 then some Version.Dce
  else if num = 3 then some Version.Md5
  else if num = 4 then some Version.Random
  else if num = 5 then some Version.Sha1
  else none

/-- Modelled from the spec: the variant accessor (`Uuid::get_variant`, not
under `src/`): classified by the top bits of byte 8 — `0xxxxxxx` NCS,
`10xxxxxx` RFC4122, `110xxxxx` Microsoft, `111xxxxx` reserved/future. -/
def get_variant (b : Bytes) : Option Variant :=
  let x := b.getD 8 0
  if x < 128 then some Variant.NCS
  else if x < 192 then some Variant.RFC4122
  else if x < 224 then some Variant.Microsoft
  else some Variant.Future

/-- Modelled from the spec: v1 construction (`Uuid::new_v1` with
`Timestamp::from_rfc4122`, not under `src/`): split the tick count into low
32 / mid 16 / high 12 bits, OR the version nibble `0001` into the top of the
high field, OR the variant bits `10` into the top of the counter's high
byte, and concatenate time-low (4 bytes), time-mid (2), time-high-and-version
(2), clock-seq (2) and the node id.  The ORs are written as additions of
disjoint bit ranges. -/
def new_v1 (ticks counter : Nat) (node : Bytes) : Bytes :=
  let time_low := ticks % 2 ^ 32
  let time_mid := ticks / 2 ^ 32 % 2 ^ 16
  let time_high_and_version := ticks / 2 ^ 48 % 2 ^ 12 + 4096
  let clock_seq_hi := counter / 256 % 64 + 128
  let clock_seq_low := counter % 256
  [time_low / 2 ^ 24, time_low / 2 ^ 16 % 256, time_low / 256 % 256, time_low % 256,
   time_mid / 256, time_mid % 256,
   time_high_and_version / 256, time_high_and_version % 256,
   clock_seq_hi, clock_seq_low] ++ node

/-- Modelled from the spec: v4 construction (`Uuid::new_v4`, not under
`src/`): 16 random bytes with the version nibble of byte 6 forced to `0100`
and the top two bits of byte 8 forced to `10`. -/
def new_v4 (randBytes : Bytes) : Bytes :=
  (randBytes.set 6 (randBytes.getD 6 0 % 16 + 64)).set 8 (randBytes.getD 8 0 % 64 + 128)

/-- Modelled from the spec: the timestamp accessor (`Uuid::to_timestamp`
followed by `Timestamp::to_rfc4122`, not under `src/`): defined only for
Mac-version values; reassembles the 60-bit tick count from the time fields
and the 14-bit counter from the clock-sequence bytes. -/
def to_timestamp (b : Bytes) : Option (Nat × Nat) :=
  if get_version b = some Version.Mac then
    some (b.getD 6 0 % 16 * 2 ^ 56 + b.getD 7 0 * 2 ^ 48
            + b.getD 4 0 * 2 ^ 40 + b.getD 5 0 * 2 ^ 32
            + b.getD 0 0 * 2 ^ 24 + b.getD 1 0 * 2 ^ 16
            + b.getD 2 0 * 2 ^ 8 + b.getD 3 0,
          b.getD 8 0 % 64 * 256 + b.getD 9 0)
  else none

/-- The node-id slice of a UUID: bytes 10 to 15 (`&uuid.as_bytes()[10..16]`
in the source, line 261). -/
def extractNodeId (b : Bytes) : Bytes := b.drop 10

/-- `ticks_from_timestamp` from the source (lines 180-187): the wall-clock
time, given as whole seconds and subsecond nanoseconds since the Unix epoch,
converted to 100-nanosecond ticks.  No epoch offset is added. -/
def ticks_from_timestamp (seconds subsec_nanos : Nat) : Nat :=
  seconds * 10000000 + subsec_nanos / 100

/-- The tick offset between the RFC 4122 epoch (1582-10-15) and the Unix
epoch (1970-01-01) named by the specification: 12219292800 seconds in
100-nanosecond ticks. -/
def RFC4122_EPOCH_OFFSET : Nat := 12219292800 * 10000000

/-- The command-line options of `struct Opt`, with the UUID argument already
parsed (argument parsing itself is external) and the MAC address fields
carrying 6-byte values. -/
structure Opt where
  uuid : Option Bytes
  version_mode : Option Version
  output_format : Option Format
  counter : Option Nat
  timestamp_ticks : Option Nat
  mac_address : Option Bytes
  mac_interface : Option (List Char)

/-- The ambient inputs `main` draws on: the wall clock, the random counter
and random bytes, and the results of the two MAC-address lookups
(`mac_address_by_name` for the requested interface and `get_mac_address` for
the default interface; `none` means no address was found). -/
structure Env where
  nowSecs : Nat
  nowNanos : Nat
  randCounter : Nat
  randBytes : Bytes
  interfaceMac : Option Bytes
  defaultMac : Option Bytes

/-- One finished run: the lines written to the primary stream (stdout), the
lines written to the diagnostic stream (stderr), and the exit status. -/
structure RunResult where
  stdout : List (List Char)
  stderr : List (List Char)
  exit : Nat
deriving DecidableEq

/-- The version-mismatch message (`main`, line 201), written to stderr. -/
def errVersionMismatch : List Char :=
  "error: Provided <uuid> did not match --version-mode".data

/-- The unsupported-generation-version message (`main`, line 242).  The
source writes it with `println!`, i.e. to stdout. -/
def errUnsupportedVersion : List Char :=
  "error: Only 0, 1, and 4 are supported for --version <version-mode> without a provided <uuid>".data

/-- The message for an interface with no MAC address (`main`, line 230),
written to stderr. -/
def errNoInterfaceMac : List Char :=
  "error: MAC address could not be obtained for --mac-interface".data

/-- The panic message when no MAC address exists at all (`main`, line 236);
a panic writes to stderr and exits with status 101. -/
def errNoMacFound : List Char := "No mac address found".data

/-- The UUID-selection phase of `main` (lines 196-246): validate a supplied
UUID against the requested version, or generate one according to the
requested version; error exits are returned as finished runs. -/
def selectUuid (o : Opt) (env : Env) : Except RunResult Bytes :=
  match o.uuid with
  | some u =>
    match o.version_mode, get_version u with
    | some expected, some v =>
      if expected ≠ v then Except.error ⟨[], [errVersionMismatch], 1⟩
      else Except.ok u
    | _, _ => Except.ok u
  | none =>
    match o.version_mode with
    | some Version.Nil => Except.ok nilUuid
    | some Version.Mac =>
      let ticks := o.timestamp_ticks.getD
        (ticks_from_timestamp env.nowSecs env.nowNanos)
      let counter := o.counter.getD env.randCounter
      match o.mac_address with
      | some node => Except.ok (new_v1 ticks counter node)
      | none =>
        match o.mac_interface with
        | some _ =>
          match env.interfaceMac with
          | some node => Except.ok (new_v1 ticks counter node)
          | none => Except.error ⟨[], [errNoInterfaceMac], 1⟩
        | none =>
          match env.defaultMac with
          | some node => Except.ok (new_v1 ticks counter node)
          | none => Except.error ⟨[], [errNoMacFound], 101⟩
    | some Version.Random => Except.ok (new_v4 env.randBytes)
    | none => Except.ok (new_v4 env.randBytes)
    | some _ => Except.error ⟨[errUnsupportedVersion], [], 1⟩

/-- The version labels of `VersionDesc` (lines 151-163). -/
def versionDesc : Option Version → List Char
  | some Version.Nil => "Nil".data
  | some Version.Mac => "v1 MAC Address".data
  | some Version.Dce => "v2 DCE".data
  | some Version.Md5 => "v3 MD5".data
  | some Version.Random => "v4 Random".data
  | some Version.Sha1 => "v5 SHA-1".data
  | none => "Unknown".data

/-- The variant labels of `VariantDesc` (lines 167-177). -/
def variantDesc : Option Variant → List Char
  | some Variant.NCS => "NCS".data
  | some Variant.RFC4122 => "RFC4122".data
  | some Variant.Microsoft => "Microsoft".data
  | some Variant.Future => "Reserved".data
  | none => "Unknown".data

/-- The uppercase hexadecimal digit character of a value below 16. -/
def hexCharUpper (n : Nat) : Char :=
  if n < 10 then Char.ofNat (48 + n) else Char.ofNat (55 + n)

/-- A MAC address as displayed by the `mac_address` crate: six uppercase
hex byte pairs joined by colons. -/
def macDisplay (node : Bytes) : List Char :=
  match node with
  | [] => []
  | [b] => [hexCharUpper (b / 16), hexCharUpper (b % 16)]
  | b :: rest => hexCharUpper (b / 16) :: hexCharUpper (b % 16) :: ':' :: macDisplay rest

/-- The decimal digits of a natural number. -/
def natDec (n : Nat) : List Char := Nat.toDigits 10 n

/-- The extra diagnostic line for Mac-version values (`main`, lines 254-269):
the embedded timestamp ticks and counter (zero when absent) and node id. -/
def macTimestampLine (u : Bytes) : List Char :=
  let p := (to_timestamp u).getD (0, 0)
  "timestamp_ticks=".data ++ natDec p.1 ++ " counter=".data ++ natDec p.2
    ++ " node_id=".data ++ macDisplay (extractNodeId u)

/-- The output phase of `main` (lines 248-281): the version/variant line and,
for Mac values, the timestamp line on stderr; the formatted UUID on stdout;
exit status 0. -/
def emitUuid (o : Opt) (u : Bytes) : RunResult :=
  let diag := versionDesc (get_version u) ++ ' ' :: variantDesc (get_variant u)
  let stderrLines :=
    if get_version u = some Version.Mac then [diag, macTimestampLine u] else [diag]
  let out :=
    match o.output_format with
    | some Format.Simple => formatSimple u
    | some Format.Urn => formatUrn u
    | some Format.Microsoft => formatMicrosoft u
    | some Format.Hyphenated => formatHyphenated u
    | none => formatHyphenated u
  ⟨[out], stderrLines, 0⟩

/-- The whole of `main` (lines 189-281): select or generate a UUID, then
print it, or stop at the first error. -/
def runMain (o : Opt) (env : Env) : RunResult :=
  match selectUuid o env with
  | Except.error r => r
  | Except.ok u => emitUuid o u

/-! ## Helper lemmas -/

theorem hexVal_hexChar : ∀ n < 16, hexVal (hexChar n) = some n := by decide

theorem hexChar_ne_lbrace : ∀ n < 16, hexChar n ≠ lbrace := by decide

theorem parseHexDigits_formatSimple :
    ∀ b : Bytes, (∀ x ∈ b, x < 256) → parseHexDigits (formatSimple b) = some b
  | [], _ => rfl
  | x :: rest, h => by
    have hx : x < 256 := h x (List.mem_cons_self x rest)
    have ih := parseHexDigits_formatSimple rest fun y hy => h y (List.mem_cons_of_mem x hy)
    have h1 : hexVal (hexChar (x / 16)) = some (x / 16) := hexVal_hexChar _ (by omega)
    have h2 : hexVal (hexChar (x % 16)) = some (x % 16) := hexVal_hexChar _ (by omega)
    show parseHexDigits (hexChar (x / 16) :: hexChar (x % 16) :: formatSimple rest)
        = some (x :: rest)
    rw [parseHexDigits, h1, h2, ih]
    have hdm : x / 16 * 16 + x % 16 = x := by omega
    simp [hdm]

theorem length_formatSimple (b : Bytes) : (formatSimple b).length = 2 * b.length := by
  induction b with
  | nil => rfl
  | cons x rest ih =>
    show (byteHex x ++ formatSimple rest).length = _
    simp [byteHex, ih]
    omega

theorem formatSimple_append (a b : Bytes) :
    formatSimple (a ++ b) = formatSimple a ++ formatSimple b := by
  simp [formatSimple]

/-- The recomposition of a byte list from the five groups of the hyphenated
format. -/
theorem take_drop_groups (b : Bytes) :
    b.take 4 ++ ((b.drop 4).take 2 ++ ((b.drop 6).take 2
      ++ ((b.drop 8).take 2 ++ b.drop 10))) = b := by
  have e1 : (b.drop 4).drop 2 = b.drop 6 := by rw [List.drop_drop]
  have e2 : (b.drop 6).drop 2 = b.drop 8 := by rw [List.drop_drop]
  have e3 : (b.drop 8).drop 2 = b.drop 10 := by rw [List.drop_drop]
  conv_rhs => rw [← List.take_append_drop 4 b]
  congr 1
  conv_rhs => rw [← List.take_append_drop 2 (b.drop 4)]
  rw [e1]
  congr 1
  conv_rhs => rw [← List.take_append_drop 2 (b.drop 6)]
  rw [e2]
  congr 1
  conv_rhs => rw [← List.take_append_drop 2 (b.drop 8)]
  rw [e3]

theorem formatHyphenated_groups (b : Bytes) :
    formatHyphenated b
      = formatSimple (b.take 4) ++ '-' ::
          (formatSimple ((b.drop 4).take 2) ++ '-' ::
            (formatSimple ((b.drop 6).take 2) ++ '-' ::
              (formatSimple ((b.drop 8).take 2) ++ '-' :: formatSimple (b.drop 10)))) := rfl

theorem formatSimple_groups (b : Bytes) :
    formatSimple b
      = formatSimple (b.take 4) ++ (formatSimple ((b.drop 4).take 2)
          ++ (formatSimple ((b.drop 6).take 2)
            ++ (formatSimple ((b.drop 8).take 2) ++ formatSimple (b.drop 10)))) := by
  conv_lhs => rw [← take_drop_groups b]
  rw [formatSimple_append, formatSimple_append, formatSimple_append, formatSimple_append]

theorem length_formatHyphenated (b : Bytes) (h16 : b.length = 16) :
    (formatHyphenated b).length = 36 := by
  rw [formatHyphenated_groups]
  simp [length_formatSimple, h16]

theorem dehyphenate_formatHyphenated (b : Bytes) (h16 : b.length = 16) :
    dehyphenate (formatHyphenated b) = formatSimple b := by
  have l1 : (formatSimple (b.take 4)).length = 8 := by
    rw [length_formatSimple]; simp [h16]
  have l2 : (formatSimple ((b.drop 4).take 2)).length = 4 := by
    rw [length_formatSimple]; simp [h16]
  have l3 : (formatSimple ((b.drop 6).take 2)).length = 4 := by
    rw [length_formatSimple]; simp [h16]
  have l4 : (formatSimple ((b.drop 8).take 2)).length = 4 := by
    rw [length_formatSimple]; simp [h16]
  rw [formatHyphenated_groups]
  set g1 := formatSimple (b.take 4) with hg1
  set g2 := formatSimple ((b.drop 4).take 2) with hg2
  set g3 := formatSimple ((b.drop 6).take 2) with hg3
  set g4 := formatSimple ((b.drop 8).take 2) with hg4
  set g5 := formatSimple (b.drop 10) with hg5
  have a1 : ∀ T : List Char, g1 ++ '-' :: T = (g1 ++ ['-']) ++ T := by
    intro T; rw [List.append_assoc]; rfl
  have a2 : ∀ T : List Char, g2 ++ '-' :: T = (g2 ++ ['-']) ++ T := by
    intro T; rw [List.append_assoc]; rfl
  have a3 : ∀ T : List Char, g3 ++ '-' :: T = (g3 ++ ['-']) ++ T := by
    intro T; rw [List.append_assoc]; rfl
  have t8 : (g1 ++ '-' :: (g2 ++ '-' :: (g3 ++ '-' :: (g4 ++ '-' :: g5)))).take 8 = g1 :=
    List.take_left' l1
  have d9 : (g1 ++ '-' :: (g2 ++ '-' :: (g3 ++ '-' :: (g4 ++ '-' :: g5)))).drop 9
      = g2 ++ '-' :: (g3 ++ '-' :: (g4 ++ '-' :: g5)) := by
    rw [a1]; exact List.drop_left' (by simp [l1])
  have d14 : (g1 ++ '-' :: (g2 ++ '-' :: (g3 ++ '-' :: (g4 ++ '-' :: g5)))).drop 14
      = g3 ++ '-' :: (g4 ++ '-' :: g5) := by
    rw [a1, show (14 : Nat) = (g1 ++ ['-']).length + 5 by simp [l1], List.drop_append,
      a2]
    exact List.drop_left' (by simp [l2])
  have d19 : (g1 ++ '-' :: (g2 ++ '-' :: (g3 ++ '-' :: (g4 ++ '-' :: g5)))).drop 19
      = g4 ++ '-' :: g5 := by
    rw [a1, show (19 : Nat) = (g1 ++ ['-']).length + 10 by simp [l1], List.drop_append,
      a2, show (10 : Nat) = (g2 ++ ['-']).length + 5 by simp [l2], List.drop_append,
      a3]
    exact List.drop_left' (by simp [l3])
  have d24 : (g1 ++ '-' :: (g2 ++ '-' :: (g3 ++ '-' :: (g4 ++ '-' :: g5)))).drop 24
      = g5 := by
    rw [a1, show (24 : Nat) = (g1 ++ ['-']).length + 15 by simp [l1], List.drop_append,
      a2, show (15 : Nat) = (g2 ++ ['-']).length + 10 by simp [l2], List.drop_append,
      a3, show (10 : Nat) = (g3 ++ ['-']).length + 5 by simp [l3], List.drop_append]
    rw [show ∀ T : List Char, g4 ++ '-' :: T = (g4 ++ ['-']) ++ T from fun T => by
      rw [List.append_assoc]; rfl]
    exact List.drop_left' (by simp [l4])
  unfold dehyphenate
  rw [t8, d9, d14, d19, d24, List.take_left' l2, List.take_left' l3, List.take_left' l4,
    formatSimple_groups b, ← hg1, ← hg2, ← hg3, ← hg4, ← hg5, List.append_assoc,
    List.append_assoc, List.append_assoc]

theorem formatHyphenated_hyphens (b : Bytes) (h16 : b.length = 16) :
    (formatHyphenated b)[8]? = some '-' ∧ (formatHyphenated b)[13]? = some '-'
      ∧ (formatHyphenated b)[18]? = some '-' ∧ (formatHyphenated b)[23]? = some '-' := by
  have l1 : (formatSimple (b.take 4)).length = 8 := by
    rw [length_formatSimple]; simp [h16]
  have l2 : (formatSimple ((b.drop 4).take 2)).length = 4 := by
    rw [length_formatSimple]; simp [h16]
  have l3 : (formatSimple ((b.drop 6).take 2)).length = 4 := by
    rw [length_formatSimple]; simp [h16]
  have l4 : (formatSimple ((b.drop 8).take 2)).length = 4 := by
    rw [length_formatSimple]; simp [h16]
  rw [formatHyphenated_groups]
  refine ⟨?_, ?_, ?_, ?_⟩
  · rw [List.getElem?_append_right (by omega), l1]
    simp
  · rw [List.getElem?_append_right (by omega), l1]
    norm_num
    rw [List.getElem?_append_right (by omega), l2]
    simp
  · rw [List.getElem?_append_right (by omega), l1]
    norm_num
    rw [List.getElem?_append_right (by omega), l2]
    norm_num
    rw [List.getElem?_append_right (by omega), l3]
    simp
  · rw [List.getElem?_append_right (by omega), l1]
    norm_num
    rw [List.getElem?_append_right (by omega), l2]
    norm_num
    rw [List.getElem?_append_right (by omega), l3]
    norm_num
    rw [List.getElem?_append_right (by omega), l4]
    simp

theorem parseHyphenated_formatHyphenated (b : Bytes) (h16 : b.length = 16)
    (h256 : ∀ x ∈ b, x < 256) :
    parseHyphenated (formatHyphenated b) = some b := by
  obtain ⟨h8, h13, h18, h23⟩ := formatHyphenated_hyphens b h16
  rw [parseHyphenated, if_pos ⟨length_formatHyphenated b h16, h8, h13, h18, h23⟩,
    dehyphenate_formatHyphenated b h16]
  exact parseHexDigits_formatSimple b h256

theorem length_formatUrn (b : Bytes) (h16 : b.length = 16) :
    (formatUrn b).length = 45 := by
  rw [formatUrn, List.length_append, length_formatHyphenated b h16]
  decide

theorem length_formatMicrosoft (b : Bytes) (h16 : b.length = 16) :
    (formatMicrosoft b).length = 38 := by
  rw [formatMicrosoft]
  simp [length_formatHyphenated b h16]

/-- C5 (claim): parsing the text produced by any of the four output formats
yields the original UUID value back. -/
theorem parse_format_roundtrip (b : Bytes) (f : Format) (h16 : b.length = 16)
    (h256 : ∀ x ∈ b, x < 256) :
    parse_uuid (formatUuid f b) = some b := by
  cases f with
  | Simple =>
    have hlen : (formatSimple b).length = 32 := by rw [length_formatSimple, h16]
    have hnb : ¬ bracedForm (formatSimple b) := by simp [bracedForm, hlen]
    show parse_uuid (formatSimple b) = some b
    rw [parse_uuid, if_neg hnb, parseUuidStr, if_neg (by simp [hlen]),
      if_neg (by simp [hlen]), if_pos hlen]
    exact parseHexDigits_formatSimple b h256
  | Hyphenated =>
    have h36 := length_formatHyphenated b h16
    rcases b with _ | ⟨x, rest⟩
    · simp at h16
    have hx : x < 256 := h256 x (List.mem_cons_self x rest)
    have hne : hexChar (x / 16) ≠ lbrace := hexChar_ne_lbrace _ (by omega)
    have hhd : (formatHyphenated (x :: rest)).head? = some (hexChar (x / 16)) := rfl
    have hnb : ¬ bracedForm (formatHyphenated (x :: rest)) := by
      intro hb
      have hl := hb.2.2.1
      rw [hhd] at hl
      exact hne (Option.some.inj hl)
    show parse_uuid (formatHyphenated (x :: rest)) = some (x :: rest)
    rw [parse_uuid, if_neg hnb, parseUuidStr, if_neg (by simp [h36]), if_pos h36]
    exact parseHyphenated_formatHyphenated _ h16 h256
  | Urn =>
    have h45 : (urnTag ++ formatHyphenated b).length = 45 := by
      rw [← formatUrn]; exact length_formatUrn b h16
    have hnb : ¬ bracedForm (urnTag ++ formatHyphenated b) := by simp [bracedForm, h45]
    have ht9 : (urnTag ++ formatHyphenated b).take 9 = urnTag := List.take_left' rfl
    have hd9 : (urnTag ++ formatHyphenated b).drop 9 = formatHyphenated b :=
      List.drop_left' rfl
    show parse_uuid (urnTag ++ formatHyphenated b) = some b
    rw [parse_uuid, if_neg hnb, parseUuidStr, if_pos ⟨h45, ht9⟩, hd9]
    exact parseHyphenated_formatHyphenated _ h16 h256
  | Microsoft =>
    have h36 := length_formatHyphenated b h16
    have h38 := length_formatMicrosoft b h16
    have hlast : (formatMicrosoft b).getLast? = some rbrace := by
      rw [formatMicrosoft, ← List.cons_append, List.getLast?_concat]
    have hb : bracedForm (formatMicrosoft b) := by
      refine ⟨by omega, by omega, rfl, hlast⟩
    show parse_uuid (formatMicrosoft b) = some b
    rw [parse_uuid, if_pos hb]
    have hstrip : stripBraces (formatMicrosoft b) = formatHyphenated b := by
      rw [stripBraces, h38, formatMicrosoft]
      show (formatHyphenated b ++ [rbrace]).take 36 = formatHyphenated b
      exact List.take_left' h36
    rw [hstrip, parseUuidStr, if_neg (by simp [h36]), if_pos h36]
    exact parseHyphenated_formatHyphenated _ h16 h256

/-- C5 witness: the round trip at a concrete UUID value in each format. -/
theorem parse_format_roundtrip_witness :
    parse_uuid (formatUuid Format.Simple
        [92, 22, 252, 177, 118, 186, 75, 6, 143, 223, 52, 166, 174, 180, 120, 197])
      = some [92, 22, 252, 177, 118, 186, 75, 6, 143, 223, 52, 166, 174, 180, 120, 197]
    ∧ parse_uuid (formatUuid Format.Hyphenated
        [92, 22, 252, 177, 118, 186, 75, 6, 143, 223, 52, 166, 174, 180, 120, 197])
      = some [92, 22, 252, 177, 118, 186, 75, 6, 143, 223, 52, 166, 174, 180, 120, 197]
    ∧ parse_uuid (formatUuid Format.Urn
        [92, 22, 252, 177, 118, 186, 75, 6, 143, 223, 52, 166, 174, 180, 120, 197])
      = some [92, 22, 252, 177, 118, 186, 75, 6, 143, 223, 52, 166, 174, 180, 120, 197]
    ∧ parse_uuid (formatUuid Format.Microsoft
        [92, 22, 252, 177, 118, 186, 75, 6, 143, 223, 52, 166, 174, 180, 120, 197])
      = some [92, 22, 252, 177, 118, 186, 75, 6, 143, 223, 52, 166, 174, 180, 120, 197] :=
  ⟨parse_format_roundtrip _ Format.Simple (by decide) (by decide),
   parse_format_roundtrip _ Format.Hyphenated (by decide) (by decide),
   parse_format_roundtrip _ Format.Urn (by decide) (by decide),
   parse_format_roundtrip _ Format.Microsoft (by decide) (by decide)⟩

/-! ## The shapes accepted by the parser -/

/-- The simple shape of the spec: 32 contiguous hexadecimal digits. -/
def simpleShape (s : List Char) : Prop :=
  s.length = 32 ∧ ∀ c ∈ s, isHexDigit c

/-- The hyphenated shape of the spec: 8-4-4-4-12 hexadecimal groups, i.e. 36
characters with hyphens at positions 8, 13, 18 and 23 and hexadecimal digits
in the 32 remaining positions. -/
def hyphShape (s : List Char) : Prop :=
  s.length = 36 ∧ s[8]? = some '-' ∧ s[13]? = some '-' ∧ s[18]? = some '-'
    ∧ s[23]? = some '-' ∧ ∀ c ∈ dehyphenate s, isHexDigit c

/-- The URN shape of the spec: the hyphenated shape prefixed with
`urn:uuid:`. -/
def urnShape (s : List Char) : Prop :=
  s.length = 45 ∧ s.take 9 = urnTag ∧ hyphShape (s.drop 9)

instance (s : List Char) : Decidable (simpleShape s) := by
  unfold simpleShape; infer_instance

instance (s : List Char) : Decidable (hyphShape s) := by
  unfold hyphShape; infer_instance

instance (s : List Char) : Decidable (urnShape s) := by
  unfold urnShape; infer_instance

theorem parseHexDigits_isSome_iff :
    ∀ s : List Char, (parseHexDigits s).isSome ↔ s.length % 2 = 0 ∧ ∀ c ∈ s, isHexDigit c
  | [] => by simp [parseHexDigits]
  | [c] => by simp [parseHexDigits]
  | c1 :: c2 :: rest => by
    have ih := parseHexDigits_isSome_iff rest
    rw [parseHexDigits]
    cases h1 : hexVal c1 <;> cases h2 : hexVal c2 <;> cases h3 : parseHexDigits rest <;>
      simp_all [isHexDigit] <;>
      first
      | (have hmod := ih.1; omega)
      | (intro hlen2; exact ih (by omega))

theorem length_dehyphenate (s : List Char) (h36 : s.length = 36) :
    (dehyphenate s).length = 32 := by
  simp [dehyphenate, h36]

theorem parseHyphenated_isSome_iff (s : List Char) :
    (parseHyphenated s).isSome ↔ hyphShape s := by
  rw [parseHyphenated]
  by_cases hc : s.length = 36 ∧ s[8]? = some '-' ∧ s[13]? = some '-'
      ∧ s[18]? = some '-' ∧ s[23]? = some '-'
  · rw [if_pos hc, parseHexDigits_isSome_iff]
    have hdl : (dehyphenate s).length = 32 := length_dehyphenate s hc.1
    constructor
    · rintro ⟨-, hall⟩
      exact ⟨hc.1, hc.2.1, hc.2.2.1, hc.2.2.2.1, hc.2.2.2.2, hall⟩
    · rintro ⟨-, -, -, -, -, hall⟩
      exact ⟨by omega, hall⟩
  · rw [if_neg hc]
    simp only [Option.isSome_none, Bool.false_eq_true, false_iff]
    intro h
    exact hc ⟨h.1, h.2.1, h.2.2.1, h.2.2.2.1, h.2.2.2.2.1⟩

theorem parseUuidStr_isSome_iff (s : List Char) :
    (parseUuidStr s).isSome ↔ simpleShape s ∨ hyphShape s ∨ urnShape s := by
  rw [parseUuidStr]
  by_cases h45 : s.length = 45 ∧ s.take 9 = urnTag
  · rw [if_pos h45, parseHyphenated_isSome_iff]
    constructor
    · intro h
      exact Or.inr (Or.inr ⟨h45.1, h45.2, h⟩)
    · rintro (hs | hh | hu)
      · have := hs.1; have := h45.1; omega
      · have := hh.1; have := h45.1; omega
      · exact hu.2.2
  · rw [if_neg h45]
    by_cases h36 : s.length = 36
    · rw [if_pos h36, parseHyphenated_isSome_iff]
      constructor
      · exact fun h => Or.inr (Or.inl h)
      · rintro (hs | hh | hu)
        · have := hs.1; omega
        · exact hh
        · have := hu.1; omega
    · rw [if_neg h36]
      by_cases h32 : s.length = 32
      · rw [if_pos h32, parseHexDigits_isSome_iff]
        constructor
        · rintro ⟨-, hall⟩
          exact Or.inl ⟨h32, hall⟩
        · rintro (hs | hh | hu)
          · exact ⟨by omega, hs.2⟩
          · have := hh.1; omega
          · have := hu.1; omega
      · rw [if_neg h32]
        simp only [Option.isSome_none, Bool.false_eq_true, false_iff]
        rintro (hs | hh | hu)
        · exact h32 hs.1
        · exact h36 hh.1
        · exact h45 ⟨hu.1, hu.2.1⟩

theorem not_shapes_of_braced (s : List Char) (hb : bracedForm s) :
    ¬ simpleShape s ∧ ¬ hyphShape s ∧ ¬ urnShape s := by
  obtain ⟨h34, h38, hhd, hlast⟩ := hb
  obtain ⟨t, rfl⟩ : ∃ t, s = lbrace :: t := by
    cases s with
    | nil => simp at hhd
    | cons a t =>
      refine ⟨t, ?_⟩
      have : a = lbrace := Option.some.inj hhd
      rw [this]
  have hnothex : ¬ (isHexDigit lbrace = true) := by decide
  refine ⟨?_, ?_, ?_⟩
  · rintro ⟨-, hall⟩
    exact hnothex (hall lbrace (List.mem_cons_self _ _))
  · rintro ⟨-, -, -, -, -, hall⟩
    have h0 : lbrace ∈ (lbrace :: t).take 8 := by
      rw [show (lbrace :: t).take 8 = lbrace :: t.take 7 from rfl]
      exact List.mem_cons_self _ _
    have hmem : lbrace ∈ dehyphenate (lbrace :: t) := by
      unfold dehyphenate
      exact List.mem_append_left _ (List.mem_append_left _ (List.mem_append_left _
        (List.mem_append_left _ h0)))
    exact hnothex (hall lbrace hmem)
  · rintro ⟨-, ht9, -⟩
    rw [show (lbrace :: t).take 9 = lbrace :: t.take 8 from rfl] at ht9
    have hhead := congrArg List.head? ht9
    rw [show (lbrace :: t.take 8).head? = some lbrace from rfl,
      show urnTag.head? = some 'u' from rfl] at hhead
    have : lbrace = 'u' := Option.some.inj hhead
    exact absurd this (by decide)

theorem length_stripBraces (s : List Char) :
    (stripBraces s).length = min (s.length - 2) (s.length - 1) := by
  simp [stripBraces]

/-- C3 counterexample: a brace-wrapped simple form (32 zeros inside braces,
total length 34) is successfully parsed even though the stripped content is
not in the hyphenated 8-4-4-4-12 form, contradicting the claim that the
stripped content is accepted only when hyphenated. -/
theorem braced_simple_accepted :
    parse_uuid (lbrace :: (List.replicate 32 '0' ++ [rbrace]))
        = some (List.replicate 16 0)
      ∧ ¬ hyphShape (stripBraces (lbrace :: (List.replicate 32 '0' ++ [rbrace]))) := by
  constructor
  · decide
  · decide

/-- C3 (amended): parsing succeeds exactly on the 32-hex-digit simple shape,
the 8-4-4-4-12 hyphenated shape, that shape prefixed with `urn:uuid:`, or a
brace-wrapped string of total length 34 to 38 whose stripped content is in
the hyphenated shape or is itself 32 contiguous hex digits; everything else
fails. -/
theorem parse_uuid_isSome_iff (s : List Char) :
    (parse_uuid s).isSome ↔
      simpleShape s ∨ hyphShape s ∨ urnShape s
        ∨ (bracedForm s ∧ (hyphShape (stripBraces s) ∨ simpleShape (stripBraces s))) := by
  rw [parse_uuid]
  by_cases hb : bracedForm s
  · rw [if_pos hb, parseUuidStr_isSome_iff]
    obtain ⟨hns, hnh, hnu⟩ := not_shapes_of_braced s hb
    have h34 := hb.1
    have h38 := hb.2.1
    have hlstrip := length_stripBraces s
    have hnustrip : ¬ urnShape (stripBraces s) := by
      intro hu
      have := hu.1
      omega
    constructor
    · rintro (h | h | h)
      · exact Or.inr (Or.inr (Or.inr ⟨hb, Or.inr h⟩))
      · exact Or.inr (Or.inr (Or.inr ⟨hb, Or.inl h⟩))
      · exact absurd h hnustrip
    · rintro (h | h | h | ⟨-, h | h⟩)
      · exact absurd h hns
      · exact absurd h hnh
      · exact absurd h hnu
      · exact Or.inr (Or.inl h)
      · exact Or.inl h
  · rw [if_neg hb, parseUuidStr_isSome_iff]
    constructor
    · rintro (h | h | h)
      exacts [Or.inl h, Or.inr (Or.inl h), Or.inr (Or.inr (Or.inl h))]
    · rintro (h | h | h | ⟨hbb, -⟩)
      exacts [Or.inl h, Or.inr (Or.inl h), Or.inr (Or.inr h), absurd hbb hb]

/-! ## Claim theorems about parsing lengths -/

/-- C7: brace-wrapped strings of total length 33 or 39 fail to parse (braces
are only stripped for total length 34 to 38), and non-brace strings whose
length is none of the supported 32, 36 or 45 fail to parse. -/
theorem invalid_length_rejected :
    (∀ s : List Char, s.length = 33 ∨ s.length = 39 → s.head? = some lbrace →
      s.getLast? = some rbrace → parse_uuid s = none)
    ∧ (∀ s : List Char, ¬ (s.head? = some lbrace ∧ s.getLast? = some rbrace) →
      s.length ≠ 32 → s.length ≠ 36 → s.length ≠ 45 → parse_uuid s = none) := by
  constructor
  · intro s hlen _ _
    have hnb : ¬ bracedForm s := by
      intro hb
      have := hb.1
      have := hb.2.1
      omega
    rw [parse_uuid, if_neg hnb, parseUuidStr]
    rcases hlen with h | h <;>
      rw [if_neg (by simp [h]), if_neg (by simp [h]), if_neg (by simp [h])]
  · intro s hnbr h32 h36 h45
    have hnb : ¬ bracedForm s := fun hb => hnbr ⟨hb.2.2.1, hb.2.2.2⟩
    rw [parse_uuid, if_neg hnb, parseUuidStr, if_neg (fun hc => h45 hc.1),
      if_neg h36, if_neg h32]

/-- C7 witness: braced strings of total length 33 and 39 and a plain
3-character string all fail to parse. -/
theorem invalid_length_rejected_witness :
    parse_uuid (lbrace :: (List.replicate 31 '0' ++ [rbrace])) = none
    ∧ parse_uuid (lbrace :: (List.replicate 37 '0' ++ [rbrace])) = none
    ∧ parse_uuid "abc".data = none :=
  ⟨invalid_length_rejected.1 _ (Or.inl (by decide)) (by decide) (by decide),
   invalid_length_rejected.1 _ (Or.inr (by decide)) (by decide) (by decide),
   invalid_length_rejected.2 _ (by decide) (by decide) (by decide) (by decide)⟩

/-! ## Claim theorems about generation -/

/-- The version and variant of a v4-constructed value, for any 16 random
bytes. -/
theorem new_v4_fields (rb : Bytes) (h16 : rb.length = 16) :
    get_version (new_v4 rb) = some Version.Random
      ∧ get_variant (new_v4 rb) = some Variant.RFC4122 := by
  have hb6 : (new_v4 rb).getD 6 0 = rb.getD 6 0 % 16 + 64 := by
    rw [new_v4, List.getD_eq_getElem?_getD, List.getElem?_set_ne (by omega),
      List.getElem?_set_self (by omega), Option.getD_some]
  have hb8 : (new_v4 rb).getD 8 0 = rb.getD 8 0 % 64 + 128 := by
    rw [new_v4, List.getD_eq_getElem?_getD,
      List.getElem?_set_self (by rw [List.length_set]; omega), Option.getD_some]
  constructor
  · simp only [get_version, hb6, show (rb.getD 6 0 % 16 + 64) / 16 = 4 from by omega]
    norm_num
  · simp only [get_variant, hb8]
    rw [if_neg (by omega), if_pos (by omega)]

/-- C9: every value produced by v4 generation has version Random and variant
RFC4122, whatever the random bytes drawn. -/
theorem random_generation_fields (rb : Bytes) (h16 : rb.length = 16)
    (_h256 : ∀ x ∈ rb, x < 256) :
    get_version (new_v4 rb) = some Version.Random
      ∧ get_variant (new_v4 rb) = some Variant.RFC4122 :=
  new_v4_fields rb h16

/-- C9 witness: the fields of a v4 value built from concrete random bytes. -/
theorem random_generation_fields_witness :
    get_version (new_v4 [0, 1, 2, 3, 4, 5, 6, 7, 8, 9, 10, 11, 12, 13, 14, 15])
        = some Version.Random
    ∧ get_variant (new_v4 [0, 1, 2, 3, 4, 5, 6, 7, 8, 9, 10, 11, 12, 13, 14, 15])
        = some Variant.RFC4122 :=
  random_generation_fields _ (by decide) (by decide)

/-- C10: with no UUID argument and no version option, `main` generates a
Random (v4) UUID from the drawn random bytes and exits successfully. -/
theorem default_generates_v4 (fmt : Option Format) (ctr ts : Option Nat)
    (mac : Option Bytes) (ifc : Option (List Char)) (env : Env)
    (h16 : env.randBytes.length = 16) :
    selectUuid ⟨none, none, fmt, ctr, ts, mac, ifc⟩ env = Except.ok (new_v4 env.randBytes)
    ∧ (runMain ⟨none, none, fmt, ctr, ts, mac, ifc⟩ env).exit = 0
    ∧ get_version (new_v4 env.randBytes) = some Version.Random :=
  ⟨rfl, rfl, (new_v4_fields env.randBytes h16).1⟩

/-- C10 witness: the default run at a concrete environment. -/
theorem default_generates_v4_witness :
    selectUuid ⟨none, none, none, none, none, none, none⟩
        ⟨0, 0, 0, List.replicate 16 0, none, none⟩
      = Except.ok (new_v4 (List.replicate 16 0))
    ∧ (runMain ⟨none, none, none, none, none, none, none⟩
        ⟨0, 0, 0, List.replicate 16 0, none, none⟩).exit = 0
    ∧ get_version (new_v4 (List.replicate 16 0)) = some Version.Random :=
  default_generates_v4 none none none none none _ (by decide)

/-- C4: a supplied UUID whose actual version differs from the requested
version makes the run fail with nothing written to the primary stream. -/
theorem version_mismatch_fails (u : Bytes) (w v : Version) (fmt : Option Format)
    (ctr ts : Option Nat) (mac : Option Bytes) (ifc : Option (List Char)) (env : Env)
    (hv : get_version u = some v) (hne : v ≠ w) :
    (runMain ⟨some u, some w, fmt, ctr, ts, mac, ifc⟩ env).stdout = []
    ∧ (runMain ⟨some u, some w, fmt, ctr, ts, mac, ifc⟩ env).exit ≠ 0 := by
  have hsel : selectUuid ⟨some u, some w, fmt, ctr, ts, mac, ifc⟩ env
      = Except.error ⟨[], [errVersionMismatch], 1⟩ := by
    simp only [selectUuid, hv]
    rw [if_pos (Ne.symm hne)]
  rw [runMain, hsel]
  refine ⟨rfl, ?_⟩
  show (1 : Nat) ≠ 0
  decide

/-- C4 witness: a Nil-version value supplied with a requested version of
Mac fails with an empty primary stream. -/
theorem version_mismatch_fails_witness :
    (runMain ⟨some nilUuid, some Version.Mac, none, none, none, none, none⟩
        ⟨0, 0, 0, [], none, none⟩).stdout = []
    ∧ (runMain ⟨some nilUuid, some Version.Mac, none, none, none, none, none⟩
        ⟨0, 0, 0, [], none, none⟩).exit ≠ 0 :=
  version_mismatch_fails nilUuid Version.Mac Version.Nil none none none none none
    ⟨0, 0, 0, [], none, none⟩ (by decide) (by decide)

/-- C8: Nil generation always succeeds with the 16-zero-byte value, version
Nil, and a simple form of 32 zero digits. -/
theorem nil_generation (fmt : Option Format) (ctr ts : Option Nat) (mac : Option Bytes)
    (ifc : Option (List Char)) (env : Env) :
    selectUuid ⟨none, some Version.Nil, fmt, ctr, ts, mac, ifc⟩ env = Except.ok nilUuid
    ∧ nilUuid = List.replicate 16 0
    ∧ get_version nilUuid = some Version.Nil
    ∧ formatSimple nilUuid = "00000000000000000000000000000000".data :=
  ⟨rfl, rfl, by decide, by decide⟩

/-- C1: the unsupported-generation-version error path (here version Dce with
no supplied UUID) writes its message to the primary stream (stdout) and
nothing to the diagnostic stream, exiting with status 1 — the source uses
`println!` for this message where every other error path uses `eprintln!`. -/
theorem unsupported_version_writes_stdout :
    runMain ⟨none, some Version.Dce, none, none, none, none, none⟩
        ⟨0, 0, 0, [], none, none⟩
      = ⟨[errUnsupportedVersion], [], 1⟩
    ∧ errUnsupportedVersion ≠ [] :=
  ⟨rfl, by decide⟩

/-- C6: Mac generation with explicit tick count 0, counter 0 and the all-zero
MAC address yields a value whose timestamp decodes to (0, 0), whose node id
is six zero bytes, whose version is Mac and whose variant is RFC4122. -/
theorem mac_explicit_zero_inputs (fmt : Option Format) (ifc : Option (List Char))
    (env : Env) :
    selectUuid ⟨none, some Version.Mac, fmt, some 0, some 0,
        some (List.replicate 6 0), ifc⟩ env
      = Except.ok (new_v1 0 0 (List.replicate 6 0))
    ∧ to_timestamp (new_v1 0 0 (List.replicate 6 0)) = some (0, 0)
    ∧ extractNodeId (new_v1 0 0 (List.replicate 6 0)) = List.replicate 6 0
    ∧ get_version (new_v1 0 0 (List.replicate 6 0)) = some Version.Mac
    ∧ get_variant (new_v1 0 0 (List.replicate 6 0)) = some Variant.RFC4122 :=
  ⟨rfl, by decide, by decide, by decide, by decide⟩

/-- C2 counterexample: generating a Mac UUID at wall-clock time 0 without an
explicit tick option embeds tick count 0; the claimed formula would instead
require the non-zero RFC 4122 epoch offset. -/
theorem ticks_no_epoch_offset :
    selectUuid ⟨none, some Version.Mac, none, some 0, none,
        some (List.replicate 6 0), none⟩ ⟨0, 0, 0, [], none, none⟩
      = Except.ok (new_v1 0 0 (List.replicate 6 0))
    ∧ to_timestamp (new_v1 0 0 (List.replicate 6 0)) = some (0, 0)
    ∧ 0 * 10000000 + 0 / 100 + RFC4122_EPOCH_OFFSET ≠ 0 :=
  ⟨rfl, by decide, by decide⟩

/-- The timestamp embedded by v1 construction decodes back to the tick count
and counter used, for any 60-bit tick count and 14-bit counter. -/
theorem to_timestamp_new_v1 (ticks counter : Nat) (node : Bytes)
    (ht : ticks < 2 ^ 60) (hc : counter < 2 ^ 14) :
    to_timestamp (new_v1 ticks counter node) = some (ticks, counter) := by
  have hv : get_version (new_v1 ticks counter node) = some Version.Mac := by
    simp only [get_version,
      show (new_v1 ticks counter node).getD 6 0
        = (ticks / 2 ^ 48 % 2 ^ 12 + 4096) / 256 from rfl,
      show (ticks / 2 ^ 48 % 2 ^ 12 + 4096) / 256 / 16 = 1 from by omega]
    norm_num
  rw [to_timestamp, if_pos hv]
  rw [show (new_v1 ticks counter node).getD 0 0 = ticks % 2 ^ 32 / 2 ^ 24 from rfl,
    show (new_v1 ticks counter node).getD 1 0 = ticks % 2 ^ 32 / 2 ^ 16 % 256 from rfl,
    show (new_v1 ticks counter node).getD 2 0 = ticks % 2 ^ 32 / 256 % 256 from rfl,
    show (new_v1 ticks counter node).getD 3 0 = ticks % 2 ^ 32 % 256 from rfl,
    show (new_v1 ticks counter node).getD 4 0 = ticks / 2 ^ 32 % 2 ^ 16 / 256 from rfl,
    show (new_v1 ticks counter node).getD 5 0 = ticks / 2 ^ 32 % 2 ^ 16 % 256 from rfl,
    show (new_v1 ticks counter node).getD 6 0
      = (ticks / 2 ^ 48 % 2 ^ 12 + 4096) / 256 from rfl,
    show (new_v1 ticks counter node).getD 7 0
      = (ticks / 2 ^ 48 % 2 ^ 12 + 4096) % 256 from rfl,
    show (new_v1 ticks counter node).getD 8 0 = counter / 256 % 64 + 128 from rfl,
    show (new_v1 ticks counter node).getD 9 0 = counter % 256 from rfl]
  simp only [Option.some.injEq, Prod.mk.injEq]
  constructor <;> omega

/-- C2 (amended): when generating a Mac (v1) UUID without an explicit
timestamp-ticks option, the tick count used is
`unix_seconds * 10_000_000 + unix_subsec_nanos / 100`, i.e. ticks since the
Unix epoch with no RFC 4122 epoch offset added; the generated value embeds
exactly that tick count. -/
theorem mac_ticks_unix_based (s n ctr : Nat) (node : Bytes) (fmt : Option Format)
    (ifc : Option (List Char)) (rc : Nat) (rb : Bytes) (im dm : Option Bytes)
    (hticks : s * 10000000 + n / 100 < 2 ^ 60) (hctr : ctr < 2 ^ 14) :
    selectUuid ⟨none, some Version.Mac, fmt, some ctr, none, some node, ifc⟩
        ⟨s, n, rc, rb, im, dm⟩
      = Except.ok (new_v1 (s * 10000000 + n / 100) ctr node)
    ∧ to_timestamp (new_v1 (s * 10000000 + n / 100) ctr node)
      = some (s * 10000000 + n / 100, ctr) :=
  ⟨rfl, to_timestamp_new_v1 _ _ _ hticks hctr⟩

/-- C2 amended witness: one second and 250 nanoseconds past the Unix epoch
yields tick count 10000002 with no epoch offset. -/
theorem mac_ticks_unix_based_witness :
    selectUuid ⟨none, some Version.Mac, none, some 5, none,
        some (List.replicate 6 0), none⟩ ⟨1, 250, 0, [], none, none⟩
      = Except.ok (new_v1 10000002 5 (List.replicate 6 0))
    ∧ to_timestamp (new_v1 10000002 5 (List.replicate 6 0)) = some (10000002, 5) :=
  mac_ticks_unix_based 1 250 5 (List.replicate 6 0) none none 0 [] none none
    (by norm_num) (by norm_num)

end UuidTools
